import Mathlib

/-!
Verification of the reference-counted ownership library in `shared-ptr.h`.

The shallow embedding below translates the control-block protocol and the
handle operations of the source into Lean.  Machine counters (`size_t`) are
modelled as `Nat` with explicit wraparound modulo `2 ^ 64`.  The two
irreversible lifecycle events of the protocol (running `unlink`, i.e. the
disposal step, and `delete this`, i.e. block deallocation) are made
observable as an explicit event list returned by each mutating operation.

Pointers (`T*` values) are modelled as `Option Nat`: `none` is the null
pointer and `some a` is a non-null address `a`.  A handle's `cb` field
(`details::control_block*`) is likewise `Option Nat`, `none` meaning the
handle holds no control block.
-/

set_option linter.unusedVariables false

/-- Modulus of the C++ `size_t` type on the 64-bit target. -/
def size_t_mod : Nat := 2 ^ 64

/-- Increment of a `size_t` value (`n++`), wrapping at `2 ^ 64`. -/
def size_t_inc (n : Nat) : Nat := (n + 1) % size_t_mod

/-- Decrement of a `size_t` value (`n--`); decrementing 0 wraps to
`2 ^ 64 - 1`, exactly as unsigned arithmetic does.  Stated in branching
form; `size_t_dec_eq_mod` below proves it equal to the usual modular
formulation on every representable value. -/
def size_t_dec (n : Nat) : Nat := if n = 0 then size_t_mod - 1 else n - 1

/-- Equivalence of `size_t_dec` with the modular formulation of unsigned
decrement, on every representable `size_t` value. -/
theorem size_t_dec_eq_mod (n : Nat) (h : n < size_t_mod) :
    size_t_dec n = (n + (size_t_mod - 1)) % size_t_mod := by
  simp only [size_t_dec, size_t_mod] at *
  split <;> omega

/-- Observable lifetime events emitted by control-block operations:
`deleterCall p` is `details::ptr_block::unlink` invoking the stored deleter
on the stored pointer `p`; `dtorInPlace` is `details::obj_block::unlink`
running the pointee's destructor over the embedded storage; `deallocBlock`
is `delete this` inside `dec_strong_ref` / `dec_weak_ref`. -/
inductive Event where
  | deleterCall (p : Option Nat)
  | dtorInPlace
  | deallocBlock
deriving DecidableEq

/-- The two concrete control-block variants of the source:
`ptrBlock target` models `details::ptr_block<Y, D>` (external ownership,
stored raw pointer `target`, stored deleter), and `objBlock` models
`details::obj_block<T>` (pointee embedded in the block's storage). -/
inductive BlockKind where
  | ptrBlock (target : Option Nat)
  | objBlock
deriving DecidableEq

/-- State of one `details::control_block`: the variant tag plus the
`strong_ref_` and `weak_ref_` counters (as `size_t` values). -/
structure BlockState where
  kind : BlockKind
  strong_ref : Nat
  weak_ref : Nat
deriving DecidableEq

/-- The event produced by the virtual `unlink()` of each block variant:
`ptr_block::unlink` calls `deleter(ptr)`, `obj_block::unlink` calls the
in-place destructor. -/
def unlinkEvent : BlockKind → Event
  | .ptrBlock p => .deleterCall p
  | .objBlock => .dtorInPlace

/-- Model of `control_block::inc_strong_ref`: `strong_ref_++`. -/
def inc_strong_ref (b : BlockState) : BlockState :=
  { b with strong_ref := size_t_inc b.strong_ref }

/-- Model of `control_block::inc_weak_ref`: `weak_ref_++`. -/
def inc_weak_ref (b : BlockState) : BlockState :=
  { b with weak_ref := size_t_inc b.weak_ref }

/-- Model of `control_block::get_strong_ref_count`. -/
def get_strong_ref_count (b : BlockState) : Nat := b.strong_ref

/-- Model of `control_block::dec_strong_ref`: `strong_ref_--`; if the
result is 0, `unlink()` runs; then, if the strong and weak counts are both
0, `delete this` runs.  The returned list records the events in the order
the source performs them. -/
def dec_strong_ref (b : BlockState) : BlockState × List Event :=
  ({ b with strong_ref := size_t_dec b.strong_ref },
    (if size_t_dec b.strong_ref = 0 then [unlinkEvent b.kind] else []) ++
      (if size_t_dec b.strong_ref = 0 ∧ b.weak_ref = 0 then [Event.deallocBlock] else []))

/-- Model of `control_block::dec_weak_ref`: `weak_ref_--`; if the strong
count is 0 and the decremented weak count is 0, `delete this` runs. -/
def dec_weak_ref (b : BlockState) : BlockState × List Event :=
  ({ b with weak_ref := size_t_dec b.weak_ref },
    if b.strong_ref = 0 ∧ size_t_dec b.weak_ref = 0 then [Event.deallocBlock] else [])

/-- Model of `shared_ptr<T>`: the `cb` field is the control-block pointer
(`none` = null), the `ptr` field is the stored typed pointer. -/
structure shared_ptr where
  cb : Option Nat
  ptr : Option Nat
deriving DecidableEq

/-- Model of `weak_ptr<T>`: same two fields as `shared_ptr`. -/
structure weak_ptr where
  cb : Option Nat
  ptr : Option Nat
deriving DecidableEq

/-- Model of the default and `nullptr_t` constructors of `shared_ptr`:
both leave `cb` and `ptr` null. -/
def shared_ptr.mk_default : shared_ptr := { cb := none, ptr := none }

/-- Model of `shared_ptr::get`. -/
def shared_ptr.get (h : shared_ptr) : Option Nat := h.ptr

/-- Model of `shared_ptr::operator bool`: `get() != nullptr`. -/
def shared_ptr.toBool (h : shared_ptr) : Bool := h.get.isSome

/-- Model of `shared_ptr::use_count`: the strong-count snapshot of the
block the handle references (`bs` is the state of that block when
`h.cb` is non-null), or 0 if the handle holds no block. -/
def use_count (h : shared_ptr) (bs : BlockState) : Nat :=
  if h.cb.isSome then get_strong_ref_count bs else 0

/-- Model of `operator==(const shared_ptr&, const shared_ptr&)`:
compares the stored pointers only. -/
def sptrEq (a b : shared_ptr) : Bool := decide (a.ptr = b.ptr)

/-- Model of `operator!=(const shared_ptr&, const shared_ptr&)`. -/
def sptrNe (a b : shared_ptr) : Bool := decide (¬a.ptr = b.ptr)

/-- Model of `~shared_ptr`: if the handle holds a block, decrement its
strong count (with the disposal/deallocation cascade); `bs` is the state
of the referenced block (ignored and returned unchanged when `cb` is
null). -/
def shared_ptr.dtor (h : shared_ptr) (bs : BlockState) : BlockState × List Event :=
  if h.cb.isSome then dec_strong_ref bs else (bs, [])

/-- Model of the copy constructor `shared_ptr(const shared_ptr&)`:
copies both fields and increments the strong count when a block is held. -/
def shared_ptr.copyCtor (other : shared_ptr) (bs : BlockState) : shared_ptr × BlockState :=
  ({ cb := other.cb, ptr := other.ptr },
    if other.cb.isSome then inc_strong_ref bs else bs)

/-- Model of the aliasing constructor
`shared_ptr(const shared_ptr<Y>& other, T* ptr)`: shares `other`'s block
(incrementing the strong count only when a block exists) but stores the
given pointer `p`. -/
def shared_ptr.aliasCtor (other : shared_ptr) (p : Option Nat) (bs : BlockState) :
    shared_ptr × BlockState :=
  ({ cb := other.cb, ptr := p },
    if other.cb.isSome then inc_strong_ref bs else bs)

/-- Model of `shared_ptr::reset()`: `shared_ptr().swap(*this)` followed by
the temporary's destructor, whose net effect is one strong decrement when
a block was held and a now-null handle. -/
def shared_ptr.resetFn (h : shared_ptr) (bs : BlockState) :
    shared_ptr × BlockState × List Event :=
  ({ cb := none, ptr := none },
    (if h.cb.isSome then dec_strong_ref bs else (bs, [])).1,
    (if h.cb.isSome then dec_strong_ref bs else (bs, [])).2)

/-- Model of the copy assignment `operator=(const shared_ptr& other)` for
handles that reference the same single block (or hold none): when
`this == &other` (`same = true`) nothing happens; otherwise a temporary
copy of `other` is made (incrementing if `other` holds the block), swapped
into `*this`, and the temporary, now holding the previous reference of
`*this`, is destroyed (decrementing if that previous reference held the
block).  The acquisition therefore precedes the release, as in the
source. -/
def shared_ptr.copyAssign (a b : shared_ptr) (same : Bool) (bs : BlockState) :
    shared_ptr × BlockState × List Event :=
  if same then (a, bs, [])
  else
    ({ cb := b.cb, ptr := b.ptr },
      (if a.cb.isSome then dec_strong_ref (if b.cb.isSome then inc_strong_ref bs else bs)
        else ((if b.cb.isSome then inc_strong_ref bs else bs), [])).1,
      (if a.cb.isSome then dec_strong_ref (if b.cb.isSome then inc_strong_ref bs else bs)
        else ((if b.cb.isSome then inc_strong_ref bs else bs), [])).2)

/-- Model of `weak_ptr::lock`: if the weak handle holds no block, or the
block's strong-count snapshot is 0, return a null `shared_ptr` and leave
the count untouched; otherwise build a handle sharing the same block and
stored pointer and increment the strong count. -/
def weak_ptr.lock (wp : weak_ptr) (bs : BlockState) : shared_ptr × BlockState :=
  if wp.cb = none ∨ get_strong_ref_count bs = 0 then
    ({ cb := none, ptr := none }, bs)
  else
    ({ cb := wp.cb, ptr := wp.ptr }, inc_strong_ref bs)

/-- Model of the raw-pointer constructor
`shared_ptr(Y* ptr, D&& deleter)` together with its function-try-block:
the environment flag `allocOk` says whether `new details::ptr_block`
succeeds.  On success a fresh block `ptr_block(ptr, deleter)` with
`strong_ref = 1, weak_ref = 0` is produced and the handle stores `p`; no
deleter call happens.  On failure the catch clause runs `deleter(ptr)`
exactly once and the exception propagates, producing no handle. -/
def shared_ptr_from_raw (allocOk : Bool) (p : Option Nat) :
    Option (shared_ptr × BlockState) × List Event :=
  if allocOk then
    (some ({ cb := some 0, ptr := p },
      { kind := .ptrBlock p, strong_ref := 1, weak_ref := 0 }), [])
  else
    (none, [Event.deleterCall p])

/-- Model of `shared_ptr::reset(Y* new_ptr, D&& new_deleter)`:
`shared_ptr(new_ptr, new_deleter).swap(*this)` followed by the
temporary's destructor.  `bs` is the state of the block currently held by
`h` (if any).  If the constructor's allocation fails the exception
propagates before the swap: `h` and its block are untouched and the
deleter has run on `p`.  On success the handle takes the new block and
the old reference (held by the temporary after the swap) is released. -/
def reset_ptr (h : shared_ptr) (bs : BlockState) (allocOk : Bool) (p : Option Nat) :
    (shared_ptr × BlockState × Option BlockState) × List Event :=
  match shared_ptr_from_raw allocOk p with
  | (none, evs) => ((h, bs, none), evs)
  | (some (h2, nb), evs) =>
      ((h2, (if h.cb.isSome then dec_strong_ref bs else (bs, [])).1, some nb),
        evs ++ (if h.cb.isSome then dec_strong_ref bs else (bs, [])).2)

/-- Model of `shared_ptr(details::obj_block<T>* cb)`: stores the block
pointer and `cb->get_ptr()` without touching any count (the block was
created with `strong_ref = 1`). -/
def shared_ptr.fromObjBlock (blockId : Nat) (storageAddr : Nat) (bs : BlockState) :
    shared_ptr × BlockState :=
  ({ cb := some blockId, ptr := some storageAddr }, bs)

/-- Model of `make_shared<T>(args...)`: the environment flag `ctorOk` says
whether the in-place construction `new (&data) T(args...)` inside the
`obj_block` constructor succeeds.  On success one `obj_block` with
`strong_ref = 1, weak_ref = 0` is created and wrapped without any extra
increment; `addr` is the address of the embedded storage.  On failure the
exception escapes the constructor of the object being created by the
new-expression, so (per the language rules for a new-expression whose
initialization throws) the just-allocated storage is released again: no
block survives, no handle is returned, and no disposal event occurs. -/
def make_shared (ctorOk : Bool) (addr : Nat) :
    Option (shared_ptr × BlockState) × List Event :=
  if ctorOk then
    (some (shared_ptr.fromObjBlock 0 addr
      { kind := .objBlock, strong_ref := 1, weak_ref := 0 }), [])
  else
    (none, [])

/-- Handle lifecycle operations on one control block, used to close the
protocol under arbitrary interleavings.  Each constructor names the
source operation whose count effect it performs: `copyOwner` is any
strong-copy (copy constructor, converting copy constructor, or aliasing
constructor from a live owner); `moveOwner` is a move (no count change);
`destroyOwner` is `~shared_ptr` or `reset()` on a live owner;
`weakFromOwner` is `weak_ptr(const shared_ptr&)`; `copyWeak` and
`moveWeak` and `destroyWeak` are the weak copy/move/destructor;
`lockOp` is `weak_ptr::lock`; `swapOp` is `swap` (no count change). -/
inductive Op where
  | copyOwner
  | moveOwner
  | destroyOwner
  | weakFromOwner
  | copyWeak
  | moveWeak
  | destroyWeak
  | lockOp
  | swapOp
deriving DecidableEq

/-- Global state of one creation point: the block (while not yet
deallocated), the number of live owning handles referencing it, the number
of live weak handles referencing it, and the accumulated lifecycle
events. -/
structure World where
  blk : Option BlockState
  owners : Nat
  weaks : Nat
  trace : List Event
deriving DecidableEq

/-- World right after a creation point (`make_shared` or the raw-pointer
constructor): one block with `strong_ref = 1, weak_ref = 0`, one owning
handle, no weak handles, no events yet. -/
def initWorld (k : BlockKind) : World :=
  { blk := some { kind := k, strong_ref := 1, weak_ref := 0 },
    owners := 1, weaks := 0, trace := [] }

/-- One handle operation on the world.  Guards encode caller discipline
(an operation needs a live handle of the right sort to be invoked on) and
the representable range of the `size_t` counters (the spec leaves count
overflow undefined).  The count mutations are exactly the source's
`inc_strong_ref` / `inc_weak_ref` / `dec_strong_ref` / `dec_weak_ref`,
and the block disappears exactly when `delete this` runs. -/
def step (op : Op) (w : World) : Option World :=
  match w.blk with
  | none => none
  | some bs =>
    match op with
    | .copyOwner =>
        if 1 ≤ w.owners ∧ bs.strong_ref + 1 < size_t_mod then
          some { w with blk := some (inc_strong_ref bs), owners := w.owners + 1 }
        else none
    | .moveOwner => if 1 ≤ w.owners then some w else none
    | .destroyOwner =>
        if 1 ≤ w.owners then
          some { blk := if (dec_strong_ref bs).1.strong_ref = 0 ∧
                    (dec_strong_ref bs).1.weak_ref = 0 then none
                  else some (dec_strong_ref bs).1,
                 owners := w.owners - 1, weaks := w.weaks,
                 trace := w.trace ++ (dec_strong_ref bs).2 }
        else none
    | .weakFromOwner =>
        if 1 ≤ w.owners ∧ bs.weak_ref + 1 < size_t_mod then
          some { w with blk := some (inc_weak_ref bs), weaks := w.weaks + 1 }
        else none
    | .copyWeak =>
        if 1 ≤ w.weaks ∧ bs.weak_ref + 1 < size_t_mod then
          some { w with blk := some (inc_weak_ref bs), weaks := w.weaks + 1 }
        else none
    | .moveWeak => if 1 ≤ w.weaks then some w else none
    | .destroyWeak =>
        if 1 ≤ w.weaks then
          some { blk := if (dec_weak_ref bs).1.strong_ref = 0 ∧
                    (dec_weak_ref bs).1.weak_ref = 0 then none
                  else some (dec_weak_ref bs).1,
                 owners := w.owners, weaks := w.weaks - 1,
                 trace := w.trace ++ (dec_weak_ref bs).2 }
        else none
    | .lockOp =>
        if 1 ≤ w.weaks then
          if bs.strong_ref = 0 then some w
          else if bs.strong_ref + 1 < size_t_mod then
            some { w with blk := some (inc_strong_ref bs), owners := w.owners + 1 }
          else none
        else none
    | .swapOp => some w

/-- The worlds reachable from a creation point by handle operations. -/
inductive Reachable : World → Prop where
  | init (k : BlockKind) : Reachable (initWorld k)
  | next {w w' : World} (op : Op) : Reachable w → step op w = some w' → Reachable w'

/-- Number of disposal events (deleter call or in-place destructor) in a
trace. -/
def unlinkCount (tr : List Event) : Nat :=
  tr.countP (fun e => match e with | .deallocBlock => false | _ => true)

/-- Number of block-deallocation events in a trace. -/
def deallocCount (tr : List Event) : Nat :=
  tr.countP (fun e => match e with | .deallocBlock => true | _ => false)

/-- The protocol invariant: while the block is allocated, its counters
equal the numbers of live owning and weak handles, stay in the `size_t`
range, at least one handle exists, and the trace is empty until the
strong count hits zero, at which point it is exactly one disposal event;
once the block is deallocated no handles remain and the trace is exactly
one disposal event followed by one deallocation event. -/
def WorldInv (w : World) : Prop :=
  match w.blk with
  | some bs =>
      bs.strong_ref = w.owners ∧ bs.weak_ref = w.weaks ∧
      w.owners < size_t_mod ∧ w.weaks < size_t_mod ∧
      0 < w.owners + w.weaks ∧
      w.trace = (if bs.strong_ref = 0 then [unlinkEvent bs.kind] else [])
  | none =>
      w.owners = 0 ∧ w.weaks = 0 ∧
      ∃ k, w.trace = [unlinkEvent k, Event.deallocBlock]

theorem size_t_dec_of_pos {n : Nat} (h1 : 0 < n) (h2 : n < size_t_mod) :
    size_t_dec n = n - 1 := by
  simp only [size_t_dec, size_t_mod] at *
  split <;> omega

theorem size_t_inc_of_lt {n : Nat} (h : n + 1 < size_t_mod) :
    size_t_inc n = n + 1 := by
  simp only [size_t_inc, size_t_mod] at *
  omega

example : size_t_dec 1 = 0 := by decide
example : size_t_dec 5 = 4 := by decide
example : (dec_strong_ref ⟨.ptrBlock (some 7), 1, 0⟩).2 =
    [Event.deleterCall (some 7), Event.deallocBlock] := by decide
example : (dec_strong_ref ⟨.objBlock, 1, 2⟩).2 = [Event.dtorInPlace] := by decide
example : (dec_strong_ref ⟨.objBlock, 2, 0⟩).2 = [] := by decide
example : (dec_weak_ref ⟨.objBlock, 0, 1⟩).2 = [Event.deallocBlock] := by decide
example : (dec_weak_ref ⟨.objBlock, 1, 1⟩).2 = [] := by decide
example : step .destroyOwner (initWorld .objBlock) =
    some { blk := none, owners := 0, weaks := 0,
           trace := [Event.dtorInPlace, Event.deallocBlock] } := by decide

theorem worldInv_init (k : BlockKind) : WorldInv (initWorld k) := by
  simp [WorldInv, initWorld, size_t_mod]

theorem worldInv_step {op : Op} {w w' : World} (hst : step op w = some w')
    (hinv : WorldInv w) : WorldInv w' := by
  obtain ⟨blk, no, nw, tr⟩ := w
  cases blk with
  | none => simp [step] at hst
  | some bs =>
    obtain ⟨kk, sc, wc⟩ := bs
    simp only [WorldInv] at hinv
    obtain ⟨hso, hww, hom, hwm, hpos, htr⟩ := hinv
    cases op with
    | copyOwner =>
      simp only [step] at hst
      split at hst
      · rename_i hc
        obtain ⟨hc1, hc2⟩ := hc
        injection hst with h
        subst h
        simp only [WorldInv, inc_strong_ref, size_t_inc_of_lt hc2]
        refine ⟨by omega, hww, by omega, hwm, by omega, ?_⟩
        rw [if_neg (by omega)] at htr
        rw [if_neg (by omega)]
        exact htr
      · exact absurd hst (by simp)
    | moveOwner =>
      simp only [step] at hst
      split at hst
      · injection hst with h
        subst h
        simp only [WorldInv]
        exact ⟨hso, hww, hom, hwm, hpos, htr⟩
      · exact absurd hst (by simp)
    | destroyOwner =>
      simp only [step] at hst
      split at hst
      · rename_i hc
        have hsc : 0 < sc := by omega
        have hdec : size_t_dec sc = sc - 1 :=
          size_t_dec_of_pos hsc (by omega)
        rw [if_neg (by omega)] at htr
        simp only [dec_strong_ref, hdec] at hst
        by_cases h1 : sc - 1 = 0
        · by_cases h2 : wc = 0
          · simp only [h1, h2, htr, and_self, if_true, eq_self_iff_true,
              List.nil_append, Option.some.injEq] at hst
            subst hst
            simp only [WorldInv]
            exact ⟨by omega, by omega, ⟨kk, by simp⟩⟩
          · simp only [h1, h2, htr, and_false, if_false, eq_self_iff_true,
              if_true, List.nil_append, Option.some.injEq] at hst
            subst hst
            simp only [WorldInv]
            refine ⟨by omega, hww, by omega, hwm, by omega, ?_⟩
            simp
        · simp only [h1, htr, false_and, if_false, List.nil_append,
            List.append_nil, Option.some.injEq] at hst
          subst hst
          simp only [WorldInv]
          refine ⟨by omega, hww, by omega, hwm, by omega, ?_⟩
          simp [h1]
      · exact absurd hst (by simp)
    | weakFromOwner =>
      simp only [step] at hst
      split at hst
      · rename_i hc
        obtain ⟨hc1, hc2⟩ := hc
        injection hst with h
        subst h
        simp only [WorldInv, inc_weak_ref, size_t_inc_of_lt hc2]
        refine ⟨hso, by omega, hom, by omega, by omega, ?_⟩
        rw [if_neg (by omega)] at htr
        rw [if_neg (by omega)]
        exact htr
      · exact absurd hst (by simp)
    | copyWeak =>
      simp only [step] at hst
      split at hst
      · rename_i hc
        obtain ⟨hc1, hc2⟩ := hc
        injection hst with h
        subst h
        simp only [WorldInv, inc_weak_ref, size_t_inc_of_lt hc2]
        exact ⟨hso, by omega, hom, by omega, by omega, htr⟩
      · exact absurd hst (by simp)
    | moveWeak =>
      simp only [step] at hst
      split at hst
      · injection hst with h
        subst h
        simp only [WorldInv]
        exact ⟨hso, hww, hom, hwm, hpos, htr⟩
      · exact absurd hst (by simp)
    | destroyWeak =>
      simp only [step] at hst
      split at hst
      · rename_i hc
        have hwc : 0 < wc := by omega
        have hdec : size_t_dec wc = wc - 1 :=
          size_t_dec_of_pos hwc (by omega)
        simp only [dec_weak_ref, hdec] at hst
        by_cases h1 : sc = 0 ∧ wc - 1 = 0
        · rw [if_pos h1, if_pos h1] at hst
          injection hst with h
          subst h
          simp only [WorldInv]
          refine ⟨by omega, by omega, ⟨kk, ?_⟩⟩
          rw [htr, if_pos h1.1]
          simp
        · rw [if_neg h1, if_neg h1] at hst
          injection hst with h
          subst h
          simp only [WorldInv]
          refine ⟨hso, by omega, hom, by omega, by omega, ?_⟩
          rw [htr]
          simp
      · exact absurd hst (by simp)
    | lockOp =>
      simp only [step] at hst
      split at hst
      · rename_i hc
        split at hst
        · rename_i hzero
          injection hst with h
          subst h
          simp only [WorldInv]
          exact ⟨hso, hww, hom, hwm, hpos, htr⟩
        · rename_i hzero
          split at hst
          · rename_i hlt
            injection hst with h
            subst h
            simp only [WorldInv, inc_strong_ref, size_t_inc_of_lt hlt]
            refine ⟨by omega, hww, by omega, hwm, by omega, ?_⟩
            rw [if_neg hzero] at htr
            rw [if_neg (by omega)]
            exact htr
          · exact absurd hst (by simp)
      · exact absurd hst (by simp)
    | swapOp =>
      simp only [step] at hst
      injection hst with h
      subst h
      simp only [WorldInv]
      exact ⟨hso, hww, hom, hwm, hpos, htr⟩

theorem reachable_worldInv {w : World} (hw : Reachable w) : WorldInv w := by
  induction hw with
  | init k => exact worldInv_init k
  | next op hw hst ih => exact worldInv_step hst ih

theorem worldInv_of_blk_some {w : World} {bs : BlockState} (h : WorldInv w)
    (hblk : w.blk = some bs) :
    bs.strong_ref = w.owners ∧ bs.weak_ref = w.weaks ∧
    w.owners < size_t_mod ∧ w.weaks < size_t_mod ∧
    0 < w.owners + w.weaks ∧
    w.trace = (if bs.strong_ref = 0 then [unlinkEvent bs.kind] else []) := by
  unfold WorldInv at h
  rw [hblk] at h
  exact h

theorem worldInv_of_blk_none {w : World} (h : WorldInv w) (hblk : w.blk = none) :
    w.owners = 0 ∧ w.weaks = 0 ∧
    ∃ k, w.trace = [unlinkEvent k, Event.deallocBlock] := by
  unfold WorldInv at h
  rw [hblk] at h
  exact h

theorem unlinkCount_single (k : BlockKind) : unlinkCount [unlinkEvent k] = 1 := by
  cases k <;> rfl

theorem unlinkCount_pair (k : BlockKind) :
    unlinkCount [unlinkEvent k, Event.deallocBlock] = 1 := by
  cases k <;> rfl

theorem deallocCount_pair (k : BlockKind) :
    deallocCount [unlinkEvent k, Event.deallocBlock] = 1 := by
  cases k <;> rfl

theorem reachable_trace_shape {w : World} (hw : Reachable w) :
    unlinkCount w.trace ≤ 1 ∧ deallocCount w.trace ≤ 1 ∧
    (w.blk = none → deallocCount w.trace = 1) ∧
    (∀ bs, w.blk = some bs → deallocCount w.trace = 0) := by
  have hinv := reachable_worldInv hw
  cases hblk : w.blk with
  | none =>
    obtain ⟨h1, h2, k, h3⟩ := worldInv_of_blk_none hinv hblk
    rw [h3]
    exact ⟨by rw [unlinkCount_pair], by rw [deallocCount_pair],
      fun _ => deallocCount_pair k, fun bs h => absurd h (by simp)⟩
  | some bs =>
    obtain ⟨h1, h2, h3, h4, h5, h6⟩ := worldInv_of_blk_some hinv hblk
    rw [h6]
    by_cases hz : bs.strong_ref = 0
    · rw [if_pos hz]
      refine ⟨by rw [unlinkCount_single], ?_, fun h => absurd h (by simp), fun _ _ => ?_⟩
      · cases bs.kind <;> simp [deallocCount, unlinkEvent]
      · cases bs.kind <;> rfl
    · rw [if_neg hz]
      exact ⟨by simp [unlinkCount], by simp [deallocCount],
        fun h => absurd h (by simp), fun _ _ => rfl⟩

/-- C1: for a control block whose strong count is positive (and in the
`size_t` range, the representation invariant of the counter),
`dec_strong_ref` decreases the strong count by one and changes nothing
else; if the resulting strong count is 0 the disposal step `unlink` runs
exactly once, emitting the stored deleter applied to the stored pointer
for an external (`ptr_block`) block or the in-place destructor for an
`obj_block`, and then, if the weak count is also 0, the block is
deallocated; if the resulting strong count is still positive no event at
all occurs; and along every reachable sequence of handle operations the
disposal step runs at most once per block. -/
theorem claim_C1_dec_strong_ref (b : BlockState)
    (h1 : 0 < b.strong_ref) (h2 : b.strong_ref < size_t_mod) :
    ((dec_strong_ref b).1.strong_ref = b.strong_ref - 1) ∧
    ((dec_strong_ref b).1.kind = b.kind ∧ (dec_strong_ref b).1.weak_ref = b.weak_ref) ∧
    (b.strong_ref = 1 →
      (dec_strong_ref b).2 =
        [unlinkEvent b.kind] ++
          (if b.weak_ref = 0 then [Event.deallocBlock] else [])) ∧
    (∀ p, b.kind = .ptrBlock p → unlinkEvent b.kind = .deleterCall p) ∧
    (b.kind = .objBlock → unlinkEvent b.kind = .dtorInPlace) ∧
    (1 < b.strong_ref → (dec_strong_ref b).2 = []) ∧
    (∀ w, Reachable w → unlinkCount w.trace ≤ 1) := by
  have hdec : size_t_dec b.strong_ref = b.strong_ref - 1 := size_t_dec_of_pos h1 h2
  refine ⟨by simp only [dec_strong_ref, hdec], ⟨rfl, rfl⟩, ?_, ?_, ?_, ?_, ?_⟩
  · intro h
    simp [dec_strong_ref, h, size_t_dec]
  · intro p hk
    rw [hk]
    rfl
  · intro hk
    rw [hk]
    rfl
  · intro h
    simp only [dec_strong_ref, hdec]
    rw [if_neg (by omega), if_neg (by omega)]
    rfl
  · intro w hw
    exact (reachable_trace_shape hw).1

theorem claim_C1_witness :
    0 < (1 : Nat) ∧ (dec_strong_ref ⟨.ptrBlock (some 7), 1, 0⟩).1.strong_ref = 1 - 1 :=
  ⟨by decide, (claim_C1_dec_strong_ref ⟨.ptrBlock (some 7), 1, 0⟩ (by decide) (by decide)).1⟩

/-- C2: `dec_weak_ref` on a block whose weak count is positive decreases
the weak count by one and deallocates the block exactly when the
decremented weak count is 0 and the strong count is already 0; and along
every reachable sequence of handle operations the block is deallocated at
most once, deallocation has happened exactly when the block is gone, at
that point no owning or weak handle remains (both counts hit zero), and
the trace is exactly one disposal event followed by the single
deallocation event, so deallocation happens only after disposal. -/
theorem claim_C2_dealloc_protocol (b : BlockState)
    (h1 : 0 < b.weak_ref) (h2 : b.weak_ref < size_t_mod) :
    ((dec_weak_ref b).1.weak_ref = b.weak_ref - 1) ∧
    ((dec_weak_ref b).2 = [Event.deallocBlock] ↔
      b.weak_ref - 1 = 0 ∧ b.strong_ref = 0) ∧
    (¬(b.weak_ref - 1 = 0 ∧ b.strong_ref = 0) → (dec_weak_ref b).2 = []) ∧
    (∀ w, Reachable w →
      deallocCount w.trace ≤ 1 ∧
      (∀ bs, w.blk = some bs → deallocCount w.trace = 0) ∧
      (w.blk = none → w.owners = 0 ∧ w.weaks = 0 ∧ deallocCount w.trace = 1 ∧
        ∃ k, w.trace = [unlinkEvent k, Event.deallocBlock]) ∧
      (w.owners = 0 ∧ w.weaks = 0 → w.blk = none)) := by
  have hdec : size_t_dec b.weak_ref = b.weak_ref - 1 := size_t_dec_of_pos h1 h2
  refine ⟨by simp only [dec_weak_ref, hdec], ?_, ?_, ?_⟩
  · simp only [dec_weak_ref, hdec]
    constructor
    · intro h
      by_cases hc : b.strong_ref = 0 ∧ b.weak_ref - 1 = 0
      · exact ⟨hc.2, hc.1⟩
      · rw [if_neg hc] at h
        exact absurd h (by simp)
    · intro ⟨ha, hb⟩
      rw [if_pos ⟨hb, ha⟩]
  · intro h
    simp only [dec_weak_ref, hdec]
    rw [if_neg (by tauto)]
  · intro w hw
    have hshape := reachable_trace_shape hw
    have hinv := reachable_worldInv hw
    refine ⟨hshape.2.1, hshape.2.2.2, ?_, ?_⟩
    · intro hblk
      obtain ⟨ho, hk, k, htr⟩ := worldInv_of_blk_none hinv hblk
      exact ⟨ho, hk, hshape.2.2.1 hblk, k, htr⟩
    · intro ⟨ho, hk⟩
      cases hblk : w.blk with
      | none => rfl
      | some bs =>
        obtain ⟨_, _, _, _, hpos, _⟩ := worldInv_of_blk_some hinv hblk
        omega

theorem claim_C2_witness :
    0 < (1 : Nat) ∧ (dec_weak_ref ⟨.objBlock, 0, 1⟩).1.weak_ref = 1 - 1 :=
  ⟨by decide, (claim_C2_dealloc_protocol ⟨.objBlock, 0, 1⟩ (by decide) (by decide)).1⟩

/-- C4: in every world reachable from one creation point by
construct/copy/move/destroy/reset/swap/lock operations, the block's
strong-count snapshot (what `use_count()` reports through any live handle
referencing the block) equals the number of currently-live owning handles
referencing that block; and `use_count()` on a handle holding no block is
0 regardless of any block state. -/
theorem claim_C4_use_count (w : World) (hw : Reachable w) :
    (∀ bs, w.blk = some bs → get_strong_ref_count bs = w.owners) ∧
    (∀ (h : shared_ptr) (bs : BlockState), h.cb = none → use_count h bs = 0) := by
  refine ⟨?_, ?_⟩
  · intro bs hblk
    exact (worldInv_of_blk_some (reachable_worldInv hw) hblk).1
  · intro h bs hcb
    simp [use_count, hcb]

theorem claim_C4_witness :
    get_strong_ref_count ⟨.objBlock, 1, 0⟩ = (initWorld .objBlock).owners :=
  (claim_C4_use_count (initWorld .objBlock) (Reachable.init .objBlock)).1
    ⟨.objBlock, 1, 0⟩ rfl

/-- C3: `weak_ptr::lock` returns a null owning handle when the weak
handle holds no block or when the block's strong-count snapshot is 0
(whatever the weak count is — `bs.weak_ref` is arbitrary here); otherwise
it increments the strong count and returns an owning handle referencing
the same block and the same stored pointer, whose `use_count()` is one
greater than the strong count before the call. -/
theorem claim_C3_lock (wp : weak_ptr) (bs : BlockState)
    (hW : bs.strong_ref + 1 < size_t_mod) :
    (wp.cb = none → wp.lock bs = ({ cb := none, ptr := none }, bs)) ∧
    (bs.strong_ref = 0 → wp.lock bs = ({ cb := none, ptr := none }, bs)) ∧
    (wp.cb ≠ none → 0 < bs.strong_ref →
      (wp.lock bs).1.cb = wp.cb ∧ (wp.lock bs).1.ptr = wp.ptr ∧
      use_count (wp.lock bs).1 (wp.lock bs).2 = bs.strong_ref + 1 ∧
      get_strong_ref_count (wp.lock bs).2 = bs.strong_ref + 1) := by
  refine ⟨?_, ?_, ?_⟩
  · intro h
    rw [weak_ptr.lock, if_pos (Or.inl h)]
  · intro h
    rw [weak_ptr.lock, if_pos (Or.inr (show get_strong_ref_count bs = 0 from h))]
  · intro h1 h2
    rw [weak_ptr.lock,
      if_neg (not_or.mpr ⟨h1, by simp only [get_strong_ref_count]; omega⟩)]
    refine ⟨rfl, rfl, ?_, ?_⟩
    · simp only [use_count, Option.isSome_iff_ne_none.mpr h1, if_true,
        get_strong_ref_count, inc_strong_ref, size_t_inc_of_lt hW]
    · simp only [get_strong_ref_count, inc_strong_ref, size_t_inc_of_lt hW]

theorem claim_C3_witness :
    (2 : Nat) + 1 < size_t_mod ∧
    use_count ((weak_ptr.mk (some 0) (some 5)).lock ⟨.objBlock, 2, 1⟩).1
        ((weak_ptr.mk (some 0) (some 5)).lock ⟨.objBlock, 2, 1⟩).2 = 2 + 1 :=
  ⟨by decide, ((claim_C3_lock ⟨some 0, some 5⟩ ⟨.objBlock, 2, 1⟩ (by decide)).2.2
    (by decide) (by decide)).2.2.1⟩

/-- C5: the raw-pointer constructor either fails to allocate the control
block, in which case the deleter runs exactly once on the raw pointer, no
handle is produced, and the failure propagates; or it succeeds, in which
case the deleter has not run and the handle owns the pointer through a
fresh external block with strong count 1 and weak count 0.
`reset(p, deleter)` follows the same rule: on allocation failure the
deleter runs once on the new pointer and the handle and its old block are
untouched. -/
theorem claim_C5_raw_ctor_failure (p : Option Nat) (h : shared_ptr) (bs : BlockState) :
    (shared_ptr_from_raw false p = (none, [Event.deleterCall p])) ∧
    ((shared_ptr_from_raw true p).2 = []) ∧
    (∃ hdl nb, shared_ptr_from_raw true p = (some (hdl, nb), []) ∧
      hdl.ptr = p ∧ hdl.cb.isSome = true ∧
      nb.strong_ref = 1 ∧ nb.weak_ref = 0 ∧ nb.kind = .ptrBlock p) ∧
    ((reset_ptr h bs false p).1.1 = h ∧ (reset_ptr h bs false p).1.2.1 = bs ∧
      (reset_ptr h bs false p).1.2.2 = none ∧
      (reset_ptr h bs false p).2 = [Event.deleterCall p]) := by
  exact ⟨rfl, rfl, ⟨_, _, rfl, rfl, rfl, rfl, rfl, rfl⟩, rfl, rfl, rfl, rfl⟩

theorem claim_C5_witness :
    shared_ptr_from_raw false (some 3) = (none, [Event.deleterCall (some 3)]) :=
  (claim_C5_raw_ctor_failure (some 3) ⟨none, none⟩ ⟨.objBlock, 1, 0⟩).1

/-- C6: `make_shared` either fails mid-construction of the pointee, in
which case no handle is returned, no disposal event occurs and no block
survives (the new-expression reclaims the storage); or it succeeds, in
which case exactly one in-place block with strong count 1 and weak count
0 is created and the returned handle reports `use_count() = 1`, i.e. no
extra increment was performed by the wrapping constructor. -/
theorem claim_C6_make_shared (addr : Nat) :
    (make_shared false addr = (none, [])) ∧
    (∃ hdl bs, make_shared true addr = (some (hdl, bs), []) ∧
      bs.strong_ref = 1 ∧ bs.weak_ref = 0 ∧ bs.kind = .objBlock ∧
      hdl.cb.isSome = true ∧ hdl.ptr = some addr ∧
      use_count hdl bs = 1) := by
  exact ⟨rfl, ⟨_, _, rfl, rfl, rfl, rfl, rfl, rfl, rfl⟩⟩

theorem claim_C6_witness : make_shared false 4 = (none, []) :=
  (claim_C6_make_shared 4).1

/-- C7: copy-assignment between owning handles copies the source's block
reference and pointer; self-assignment is a no-op; assigning from a
handle that holds the block into a handle that holds none performs the
increment; and assigning between two distinct handles that both hold the
(same) block acquires before releasing, so the strong count returns to
its original positive value, never reaches zero in the result, and no
disposal or deallocation event occurs. -/
theorem claim_C7_copy_assign (a b : shared_ptr) (bs : BlockState)
    (hpos : 0 < bs.strong_ref) (hW : bs.strong_ref + 1 < size_t_mod) :
    (shared_ptr.copyAssign a b true bs = (a, bs, [])) ∧
    ((shared_ptr.copyAssign a b false bs).1 = { cb := b.cb, ptr := b.ptr }) ∧
    (a.cb = none → b.cb.isSome = true →
      shared_ptr.copyAssign a b false bs =
        ({ cb := b.cb, ptr := b.ptr }, inc_strong_ref bs, [])) ∧
    (a.cb.isSome = true → b.cb.isSome = true →
      (shared_ptr.copyAssign a b false bs).2.1 = bs ∧
      (shared_ptr.copyAssign a b false bs).2.2 = []) := by
  obtain ⟨k, s, wc⟩ := bs
  dsimp only at hpos hW
  have hd : size_t_dec (s + 1) = s := by
    rw [size_t_dec_of_pos (by omega) hW]
    omega
  refine ⟨rfl, ?_, ?_, ?_⟩
  · rw [shared_ptr.copyAssign]
    simp
  · intro ha hb
    simp [shared_ptr.copyAssign, ha, hb]
  · intro ha hb
    have hs0 : ¬s = 0 := by omega
    simp [shared_ptr.copyAssign, ha, hb, inc_strong_ref, size_t_inc_of_lt hW,
      dec_strong_ref, hd, hs0]

theorem claim_C7_witness :
    0 < (2 : Nat) ∧
    shared_ptr.copyAssign ⟨some 0, some 5⟩ ⟨some 0, some 5⟩ true ⟨.objBlock, 2, 0⟩ =
      (⟨some 0, some 5⟩, ⟨.objBlock, 2, 0⟩, []) :=
  ⟨by decide,
    (claim_C7_copy_assign ⟨some 0, some 5⟩ ⟨some 0, some 5⟩ ⟨.objBlock, 2, 0⟩
      (by decide) (by decide)).1⟩

/-- C8: two owning handles compare equal exactly when their stored typed
pointers are identical, `!=` is the negation of `==`, block identity
plays no role (any two control-block fields give the same verdict for the
same stored pointers), and two empty handles compare equal. -/
theorem claim_C8_equality (a b : shared_ptr) :
    (sptrEq a b = true ↔ a.ptr = b.ptr) ∧
    (sptrNe a b = !sptrEq a b) ∧
    (∀ c1 c2 c3 c4 : Option Nat, ∀ p q : Option Nat,
      sptrEq { cb := c1, ptr := p } { cb := c2, ptr := q } =
        sptrEq { cb := c3, ptr := p } { cb := c4, ptr := q }) ∧
    (sptrEq shared_ptr.mk_default shared_ptr.mk_default = true) := by
  refine ⟨by simp [sptrEq], by simp [sptrEq, sptrNe], ?_, by decide⟩
  intro c1 c2 c3 c4 p q
  simp [sptrEq]

theorem claim_C8_witness :
    sptrEq ⟨some 1, some 2⟩ ⟨none, some 2⟩ = true :=
  (claim_C8_equality ⟨some 1, some 2⟩ ⟨none, some 2⟩).1.mpr rfl

/-- C9: aliasing-constructing an owning handle from an empty source
handle and a non-null raw pointer yields a handle with no block whose
`get()` returns the pointer and which converts to `true`, yet whose
`use_count()` is 0; no count is touched at construction, and destroying
or resetting this handle performs no decrement, no disposal and no
deallocation. -/
theorem claim_C9_alias_empty (other : shared_ptr) (p : Nat) (bs : BlockState)
    (hcb : other.cb = none) :
    (shared_ptr.aliasCtor other (some p) bs).1 = { cb := none, ptr := some p } ∧
    (shared_ptr.aliasCtor other (some p) bs).2 = bs ∧
    shared_ptr.get ((shared_ptr.aliasCtor other (some p) bs).1) = some p ∧
    shared_ptr.toBool ((shared_ptr.aliasCtor other (some p) bs).1) = true ∧
    use_count ((shared_ptr.aliasCtor other (some p) bs).1) bs = 0 ∧
    shared_ptr.dtor ((shared_ptr.aliasCtor other (some p) bs).1) bs = (bs, []) ∧
    shared_ptr.resetFn ((shared_ptr.aliasCtor other (some p) bs).1) bs =
      ({ cb := none, ptr := none }, bs, []) := by
  simp [shared_ptr.aliasCtor, hcb, shared_ptr.get, shared_ptr.toBool, use_count,
    shared_ptr.dtor, shared_ptr.resetFn]

theorem claim_C9_witness :
    (⟨none, some 9⟩ : shared_ptr).cb = none ∧
    use_count ((shared_ptr.aliasCtor ⟨none, some 9⟩ (some 7) ⟨.objBlock, 1, 0⟩).1)
      ⟨.objBlock, 1, 0⟩ = 0 :=
  ⟨rfl, (claim_C9_alias_empty ⟨none, some 9⟩ 7 ⟨.objBlock, 1, 0⟩ rfl).2.2.2.2.1⟩

/-- C10: constructing an owning handle from a null typed raw pointer
still allocates a control block with strong count 1: the handle reports
`use_count() = 1`, `get()` is null, the handle converts to `false` and
compares equal to a default-constructed handle (whose control block is
null, unlike this one); destroying it invokes the deleter once on the
null pointer and then deallocates the block. -/
theorem claim_C10_null_raw_ptr :
    ∃ hdl bs, shared_ptr_from_raw true none = (some (hdl, bs), []) ∧
      use_count hdl bs = 1 ∧ shared_ptr.get hdl = none ∧
      shared_ptr.toBool hdl = false ∧
      sptrEq hdl shared_ptr.mk_default = true ∧
      hdl.cb.isSome = true ∧ shared_ptr.mk_default.cb = none ∧
      shared_ptr.dtor hdl bs =
        (⟨.ptrBlock none, 0, 0⟩, [Event.deleterCall none, Event.deallocBlock]) := by
  exact ⟨_, _, rfl, rfl, rfl, rfl, rfl, rfl, rfl, by decide⟩
